import Mathlib

/-!
# Verification of the `ProfileDots` interactive-dots component

Shallow embedding of `src/interactive_dots.js` (class `ProfileDots`).
Coordinates, times and influences are modelled as exact numbers:
the grid-generation loop (which only adds and compares) over `ℚ`,
and the influence / rendering computations (which use `Math.sqrt`
and `Math.sin`) over `ℝ`.
-/

namespace ProfileDots

/-- One column/row of the grid loop of `initDots`
(`for (let x = gridSpacing / 2; x < width; x += gridSpacing)`):
the list of coordinates produced starting from `x`.
The conjunct `0 < spacing` only makes the recursion total: the JS loop
does not terminate when `spacing ≤ 0` and `x < width`, and every claim
is about positive spacing. -/
def gridCoords (spacing width : ℚ) (x : ℚ) : List ℚ :=
  if h : 0 < spacing ∧ x < width then
    x :: gridCoords spacing width (x + spacing)
  else
    []
termination_by (⌈(width - x) / spacing⌉).toNat
decreasing_by
  have hS : 0 < spacing := h.1
  have hx : x < width := h.2
  have h1 : (width - (x + spacing)) / spacing = (width - x) / spacing - 1 := by
    field_simp
    ring
  have h2 : (0 : ℚ) < (width - x) / spacing := by
    apply div_pos (by linarith) hS
  have h3 : (1 : ℤ) ≤ ⌈(width - x) / spacing⌉ := by
    exact_mod_cast Int.ceil_pos.mpr h2
  rw [h1, Int.ceil_sub_one]
  omega

/-- Embeds `ProfileDots.initDots(width, height)`: the generated dot positions, in
push order (outer loop over `x`, inner loop over `y`), both loops starting
at `gridSpacing / 2` and stepping by `gridSpacing`. Only the positions are
modelled; each dot's random `phase` is irrelevant to layout. -/
def initDots (gridSpacing width height : ℚ) : List (ℚ × ℚ) :=
  (gridCoords gridSpacing width (gridSpacing / 2)).flatMap fun x =>
    (gridCoords gridSpacing height (gridSpacing / 2)).map fun y => (x, y)

/-- Length of one grid loop: the number of `i : ℕ` with `x + i·S < W`,
which is `⌈(W - x)/S⌉` (clamped to `0`). -/
theorem gridCoords_length (spacing width x : ℚ) (hS : 0 < spacing) :
    (gridCoords spacing width x).length = (⌈(width - x) / spacing⌉).toNat := by
  induction x using gridCoords.induct spacing width with
  | case1 x h ih =>
    rw [gridCoords, dif_pos h, List.length_cons, ih]
    have h1 : (width - (x + spacing)) / spacing = (width - x) / spacing - 1 := by
      field_simp
      ring
    have h2 : (0 : ℚ) < (width - x) / spacing := div_pos (by linarith [h.2]) hS
    have h3 : (1 : ℤ) ≤ ⌈(width - x) / spacing⌉ := by
      exact_mod_cast Int.ceil_pos.mpr h2
    rw [h1, Int.ceil_sub_one]
    omega
  | case2 x h =>
    rw [gridCoords, dif_neg h]
    have hx : ¬ x < width := fun hlt => h ⟨hS, hlt⟩
    have h2 : (width - x) / spacing ≤ 0 :=
      div_nonpos_of_nonpos_of_nonneg (by linarith) (le_of_lt hS)
    have h3 : ⌈(width - x) / spacing⌉ ≤ 0 := by
      rw [Int.ceil_le]
      exact_mod_cast h2
    simp only [List.length_nil]
    omega

/-- Membership in one grid loop: exactly the arithmetic progression
`x + i·S` truncated below `width`. -/
theorem gridCoords_mem (spacing width x c : ℚ) (hS : 0 < spacing) :
    c ∈ gridCoords spacing width x ↔ ∃ i : ℕ, c = x + i * spacing ∧ c < width := by
  induction x using gridCoords.induct spacing width with
  | case1 x h ih =>
    rw [gridCoords, dif_pos h, List.mem_cons, ih]
    constructor
    · rintro (rfl | ⟨i, rfl, hlt⟩)
      · exact ⟨0, by push_cast; ring, h.2⟩
      · exact ⟨i + 1, by push_cast; ring, hlt⟩
    · rintro ⟨i, rfl, hlt⟩
      match i with
      | 0 => left; push_cast; ring
      | Nat.succ j =>
        right
        exact ⟨j, by push_cast; ring, hlt⟩
  | case2 x h =>
    rw [gridCoords, dif_neg h]
    have hx : ¬ x < width := fun hlt => h ⟨hS, hlt⟩
    simp only [List.not_mem_nil, false_iff]
    rintro ⟨i, rfl, hlt⟩
    have : (0 : ℚ) ≤ (i : ℚ) * spacing :=
      mul_nonneg (Nat.cast_nonneg i) (le_of_lt hS)
    exact hx (by linarith)

/-- Per-axis dot count of `initDots`, rewritten with the loop start
`gridSpacing / 2` folded into the ceiling argument. -/
theorem gridCoords_length_half (spacing width : ℚ) (hS : 0 < spacing) :
    (gridCoords spacing width (spacing / 2)).length =
      (⌈width / spacing - 1 / 2⌉).toNat := by
  have hne : spacing ≠ 0 := ne_of_gt hS
  have harg : (width - spacing / 2) / spacing = width / spacing - 1 / 2 := by
    rw [sub_div]
    have h2 : spacing / 2 / spacing = 1 / 2 := by
      rw [div_div, div_eq_div_iff (by positivity) (by norm_num)]
      ring
    rw [h2]
  rw [gridCoords_length spacing width (spacing / 2) hS, harg]

/-- Total dot count of `initDots`: the product of the two per-axis counts. -/
theorem initDots_length (S W H : ℚ) (hS : 0 < S) :
    (initDots S W H).length =
      (⌈W / S - 1 / 2⌉).toNat * (⌈H / S - 1 / 2⌉).toNat := by
  unfold initDots
  rw [List.length_flatMap]
  have hconst : List.map
      (List.length ∘ fun x => List.map (fun y => (x, y)) (gridCoords S H (S / 2)))
      (gridCoords S W (S / 2)) =
      List.replicate (gridCoords S W (S / 2)).length
        (gridCoords S H (S / 2)).length := by
    simp [Function.comp_def]
  rw [hconst, List.sum_replicate, smul_eq_mul,
    gridCoords_length_half S W hS, gridCoords_length_half S H hS]

/-- C1, counterexample: for a 100×100 surface with spacing 40 the code
generates 2 × 2 = 4 dots (columns at 20 and 60), but the claimed count
`⌈W/S⌉ * ⌈H/S⌉ = ⌈2.5⌉ * ⌈2.5⌉ = 9` does not match. -/
theorem C1_grid_count_counterexample :
    ¬ ((initDots 40 100 100).length =
        (⌈(100 : ℚ) / 40⌉ * ⌈(100 : ℚ) / 40⌉).toNat) := by
  have h4 : (initDots 40 100 100).length = 4 := by
    rw [initDots_length 40 100 100 (by norm_num)]
    have h2 : ⌈(100 : ℚ) / 40 - 1 / 2⌉ = 2 := by
      rw [Int.ceil_eq_iff]
      norm_num
    rw [h2]
    rfl
  have h9 : (⌈(100 : ℚ) / 40⌉ * ⌈(100 : ℚ) / 40⌉).toNat = 9 := by
    have h3 : ⌈(100 : ℚ) / 40⌉ = 3 := by
      rw [Int.ceil_eq_iff]
      norm_num
    rw [h3]
    rfl
  rw [h4, h9]
  omega

/-- C1 (amended): for spacing `S > 0` the grid has exactly
`⌈W/S - 1/2⌉ * ⌈H/S - 1/2⌉` dots (not `⌈W/S⌉ * ⌈H/S⌉`), the dots are
exactly the points `(S/2 + i·S, S/2 + j·S)` whose coordinates stay below
the surface bounds, and every dot lies inside `[0,W) × [0,H)`. -/
theorem C1_grid_amended (S W H : ℚ) (hS : 0 < S) :
    (initDots S W H).length = (⌈W / S - 1/2⌉).toNat * (⌈H / S - 1/2⌉).toNat
    ∧ (∀ p : ℚ × ℚ, p ∈ initDots S W H ↔
        ∃ i j : ℕ, p.1 = S / 2 + i * S ∧ p.2 = S / 2 + j * S ∧
          p.1 < W ∧ p.2 < H)
    ∧ (∀ p ∈ initDots S W H, 0 ≤ p.1 ∧ p.1 < W ∧ 0 ≤ p.2 ∧ p.2 < H) := by
  have hmem : ∀ p : ℚ × ℚ, p ∈ initDots S W H ↔
      ∃ i j : ℕ, p.1 = S / 2 + i * S ∧ p.2 = S / 2 + j * S ∧
        p.1 < W ∧ p.2 < H := by
    intro p
    unfold initDots
    rw [List.mem_flatMap]
    constructor
    · rintro ⟨x, hx, hp⟩
      rw [List.mem_map] at hp
      obtain ⟨y, hy, rfl⟩ := hp
      rw [gridCoords_mem S W _ _ hS] at hx
      rw [gridCoords_mem S H _ _ hS] at hy
      obtain ⟨i, hxi, hxW⟩ := hx
      obtain ⟨j, hyj, hyH⟩ := hy
      exact ⟨i, j, by simpa using hxi, by simpa using hyj, hxW, hyH⟩
    · rintro ⟨i, j, h1, h2, h3, h4⟩
      refine ⟨p.1, ?_, ?_⟩
      · rw [gridCoords_mem S W _ _ hS]
        exact ⟨i, by linarith, h3⟩
      · rw [List.mem_map]
        refine ⟨p.2, ?_, ?_⟩
        · rw [gridCoords_mem S H _ _ hS]
          exact ⟨j, by linarith, h4⟩
        · exact Prod.ext rfl rfl
  refine ⟨initDots_length S W H hS, hmem, ?_⟩
  · intro p hp
    rw [hmem p] at hp
    obtain ⟨i, j, h1, h2, h3, h4⟩ := hp
    have hi : (0 : ℚ) ≤ (i : ℚ) * S := mul_nonneg (Nat.cast_nonneg i) hS.le
    have hj : (0 : ℚ) ≤ (j : ℚ) * S := mul_nonneg (Nat.cast_nonneg j) hS.le
    refine ⟨by linarith, h3, by linarith, h4⟩

/-- C1, witness: the 100×100 surface with spacing 20 has 25 dots,
including `(10,10)` and `(90,90)`. -/
theorem C1_grid_witness :
    (0 : ℚ) < 20
    ∧ (initDots 20 100 100).length = 25
    ∧ ((10 : ℚ), (10 : ℚ)) ∈ initDots 20 100 100
    ∧ ((90 : ℚ), (90 : ℚ)) ∈ initDots 20 100 100 := by
  have h := C1_grid_amended 20 100 100 (by norm_num)
  refine ⟨by norm_num, ?_, ?_, ?_⟩
  · rw [h.1]
    have h5 : ⌈(100 : ℚ) / 20 - 1 / 2⌉ = 5 := by
      rw [Int.ceil_eq_iff]
      norm_num
    rw [h5]
    rfl
  · rw [h.2.1]
    exact ⟨0, 0, by norm_num, by norm_num, by norm_num, by norm_num⟩
  · rw [h.2.1]
    exact ⟨4, 4, by norm_num, by norm_num, by norm_num, by norm_num⟩

/-- The pointer state `this.mouse = { x: 0, y: 0, isDown: false }`. -/
structure Mouse where
  x : ℝ
  y : ℝ
  isDown : Bool

/-- A ripple as pushed by the `mousedown`/`touchstart` handlers:
`{ x, y, time: Date.now(), intensity: 2 }`. -/
structure Ripple where
  x : ℝ
  y : ℝ
  time : ℝ
  intensity : ℝ

/-- Embeds `ProfileDots.getMouseInfluence(x, y)`. -/
noncomputable def getMouseInfluence (mouse : Mouse) (x y : ℝ) : ℝ :=
  let dx := x - mouse.x
  let dy := y - mouse.y
  let distance := Real.sqrt (dx * dx + dy * dy)
  let maxDistance : ℝ := 100
  max 0 (1 - distance / maxDistance)

/-- The body of the `forEach` in `ProfileDots.getRippleInfluence`: what one
ripple adds to `totalInfluence` at query point `(x, y)` and time
`currentTime`. -/
noncomputable def rippleContribution (currentTime x y : ℝ) (ripple : Ripple) : ℝ :=
  let age := currentTime - ripple.time
  let maxAge : ℝ := 2000
  if age < maxAge then
    let dx := x - ripple.x
    let dy := y - ripple.y
    let distance := Real.sqrt (dx * dx + dy * dy)
    let progress := age / maxAge
    let rippleRadius := progress * 150
    let rippleWidth : ℝ := 40
    if |distance - rippleRadius| < rippleWidth then
      (1 - progress) * ripple.intensity * (1 - |distance - rippleRadius| / rippleWidth)
    else 0
  else 0

/-- Embeds `ProfileDots.getRippleInfluence(x, y, currentTime)`: the per-ripple
contributions summed, then `Math.min(totalInfluence, 2)`. -/
noncomputable def getRippleInfluence (ripples : List Ripple) (x y currentTime : ℝ) : ℝ :=
  min ((ripples.map (rippleContribution currentTime x y)).sum) 2

/-- The `mousemove` handler: updates the pointer position to
surface-local coordinates; the ripple list is untouched. -/
def mousemoveHandler (mouse : Mouse) (ripples : List Ripple)
    (clientX clientY rectLeft rectTop : ℝ) : Mouse × List Ripple :=
  ({ mouse with x := clientX - rectLeft, y := clientY - rectTop }, ripples)

/-- The `mousedown` handler: sets `isDown`, pushes a ripple of intensity 2
at the surface-local click position, then filters out ripples with
`now - r.time >= 3000`. The two `Date.now()` calls in the handler are
modelled as the same instant `now`. -/
noncomputable def mousedownHandler (mouse : Mouse) (ripples : List Ripple)
    (clientX clientY rectLeft rectTop now : ℝ) : Mouse × List Ripple :=
  let mouse' := { mouse with isDown := true }
  let ripples' := ripples ++ [⟨clientX - rectLeft, clientY - rectTop, now, 2⟩]
  (mouse', ripples'.filter fun r => decide (now - r.time < 3000))

/-- The `mouseup` handler: clears `isDown`; the ripple list is untouched. -/
def mouseupHandler (mouse : Mouse) (ripples : List Ripple) : Mouse × List Ripple :=
  ({ mouse with isDown := false }, ripples)

/-- The `touchstart` handler: pushes a ripple of intensity 2 at the
surface-local position of the first touch. It neither touches the pointer
state nor filters the ripple list. -/
def touchstartHandler (mouse : Mouse) (ripples : List Ripple)
    (touchClientX touchClientY rectLeft rectTop now : ℝ) : Mouse × List Ripple :=
  (mouse, ripples ++ [⟨touchClientX - rectLeft, touchClientY - rectTop, now, 2⟩])

/-- A dot as pushed by `initDots`; `phase` is the random `Math.random() * 2π`. -/
structure Dot where
  x : ℝ
  y : ℝ
  originalX : ℝ
  originalY : ℝ
  phase : ℝ

/-- The per-dot computation of one `animate()` frame: the painted arc
radius `Math.max(0, size)`, the fill opacity, and the updated dot
(`dot.x = dot.originalX; dot.y = dot.originalY`). `time` is the value of
`this.time` after the frame's `this.time += this.animationSpeed`. -/
noncomputable def renderDot (mouse : Mouse) (ripples : List Ripple)
    (time currentTime : ℝ) (dot : Dot) : ℝ × ℝ × Dot :=
  let mouseInf := getMouseInfluence mouse dot.originalX dot.originalY
  let rippleInf := getRippleInfluence ripples dot.originalX dot.originalY currentTime
  let totalInf := mouseInf + rippleInf
  let baseSize : ℝ := 1.5
  let size := baseSize + totalInf * 3 + Real.sin (time + dot.phase) * 0.5
  let opacity := max 0.3 (0.6 + totalInf * 0.4 + |Real.sin (time * 0.5 + dot.phase)| * 0.1)
  (max 0 size, opacity, { dot with x := dot.originalX, y := dot.originalY })

/-- The mutable state of a `ProfileDots` instance that one `animate()`
frame can touch. -/
structure DotsState where
  time : ℝ
  animationSpeed : ℝ
  mouse : Mouse
  ripples : List Ripple
  dots : List Dot

/-- The state change of one `animate()` frame: `this.time` advances by
`this.animationSpeed`, each dot's `x`/`y` is reset to its originals, and
nothing else is written (drawing goes to the canvas, not to the state). -/
noncomputable def animateStep (s : DotsState) (currentTime : ℝ) : DotsState :=
  { s with
    time := s.time + s.animationSpeed
    dots := s.dots.map fun dot =>
      (renderDot s.mouse s.ripples (s.time + s.animationSpeed) currentTime dot).2.2 }

/-- C2: a ripple created at `t0` contributes exactly 0 to the ripple
influence for any query at `t ≥ t0 + 2000` and any dot position: its
own contribution is 0, and removing it from the ripple list (wherever it
sits) does not change the value `getRippleInfluence` returns. -/
theorem C2_expired_ripple_zero (r : Ripple) (l₁ l₂ : List Ripple) (x y t : ℝ)
    (h : r.time + 2000 ≤ t) :
    rippleContribution t x y r = 0
    ∧ getRippleInfluence (l₁ ++ r :: l₂) x y t = getRippleInfluence (l₁ ++ l₂) x y t := by
  have hc : rippleContribution t x y r = 0 := by
    simp only [rippleContribution]
    rw [if_neg]
    push_neg
    linarith
  refine ⟨hc, ?_⟩
  unfold getRippleInfluence
  congr 1
  rw [List.map_append, List.map_cons, List.map_append, List.sum_append,
    List.sum_append, List.sum_cons, hc, zero_add]

/-- C2, witness: a ripple created at time 0 queried at time 2500. -/
theorem C2_expired_ripple_zero_witness :
    (⟨0, 0, 0, 2⟩ : Ripple).time + 2000 ≤ 2500
    ∧ rippleContribution 2500 3 4 ⟨0, 0, 0, 2⟩ = 0
    ∧ getRippleInfluence ([] ++ ⟨0, 0, 0, 2⟩ :: []) 3 4 2500
        = getRippleInfluence ([] ++ []) 3 4 2500 := by
  have h := C2_expired_ripple_zero ⟨0, 0, 0, 2⟩ [] [] 3 4 2500 (by norm_num)
  exact ⟨by norm_num, h.1, h.2⟩

/-- C3: the mouse influence is `max (0, 1 - d/100)` for `d` the Euclidean
distance from the query point to the pointer; it is 1 exactly at the
pointer position, 0 whenever `d ≥ 100`, and non-increasing in distance. -/
theorem C3_mouse_influence (m : Mouse) (x y : ℝ) :
    getMouseInfluence m x y
      = max 0 (1 - Real.sqrt ((x - m.x) ^ 2 + (y - m.y) ^ 2) / 100)
    ∧ (getMouseInfluence m x y = 1 ↔ x = m.x ∧ y = m.y)
    ∧ (100 ≤ Real.sqrt ((x - m.x) ^ 2 + (y - m.y) ^ 2) →
        getMouseInfluence m x y = 0)
    ∧ (∀ x' y' : ℝ,
        Real.sqrt ((x - m.x) ^ 2 + (y - m.y) ^ 2)
          ≤ Real.sqrt ((x' - m.x) ^ 2 + (y' - m.y) ^ 2) →
        getMouseInfluence m x' y' ≤ getMouseInfluence m x y) := by
  have hform : ∀ a b : ℝ, getMouseInfluence m a b
      = max 0 (1 - Real.sqrt ((a - m.x) ^ 2 + (b - m.y) ^ 2) / 100) := by
    intro a b
    simp only [getMouseInfluence]
    congr 2
    ring
  refine ⟨hform x y, ?_, ?_, ?_⟩
  · rw [hform x y]
    have hnn : (0 : ℝ) ≤ (x - m.x) ^ 2 + (y - m.y) ^ 2 := by positivity
    have hs : 0 ≤ Real.sqrt ((x - m.x) ^ 2 + (y - m.y) ^ 2) := Real.sqrt_nonneg _
    constructor
    · intro h1
      have h2 : 1 - Real.sqrt ((x - m.x) ^ 2 + (y - m.y) ^ 2) / 100 = 1 := by
        rcases max_cases 0 (1 - Real.sqrt ((x - m.x) ^ 2 + (y - m.y) ^ 2) / 100)
          with ⟨heq, _⟩ | ⟨heq, _⟩
        · rw [heq] at h1
          norm_num at h1
        · rw [heq] at h1
          exact h1
      have h3 : Real.sqrt ((x - m.x) ^ 2 + (y - m.y) ^ 2) = 0 := by linarith
      have h4 : (x - m.x) ^ 2 + (y - m.y) ^ 2 = 0 := by
        rwa [Real.sqrt_eq_zero hnn] at h3
      have h5 : (x - m.x) ^ 2 = 0 ∧ (y - m.y) ^ 2 = 0 := by
        constructor <;> nlinarith [sq_nonneg (x - m.x), sq_nonneg (y - m.y)]
      constructor
      · have := pow_eq_zero_iff (n := 2) (by norm_num) |>.mp h5.1
        linarith
      · have := pow_eq_zero_iff (n := 2) (by norm_num) |>.mp h5.2
        linarith
    · rintro ⟨rfl, rfl⟩
      simp
  · intro hd
    rw [hform x y]
    have : 1 - Real.sqrt ((x - m.x) ^ 2 + (y - m.y) ^ 2) / 100 ≤ 0 := by
      have : (1 : ℝ) ≤ Real.sqrt ((x - m.x) ^ 2 + (y - m.y) ^ 2) / 100 := by
        linarith [div_le_div_of_nonneg_right (c := (100 : ℝ)) hd (by norm_num)]
      linarith
    exact max_eq_left this
  · intro x' y' hle
    rw [hform x y, hform x' y']
    apply max_le_max le_rfl
    have := div_le_div_of_nonneg_right (c := (100 : ℝ)) hle (by norm_num)
    linarith

/-- C3, witness: pointer at the origin; influence 1 at the pointer and 0
at the point `(100, 0)`, which is at distance 100. -/
theorem C3_mouse_influence_witness :
    getMouseInfluence ⟨0, 0, false⟩ 0 0 = 1
    ∧ (100 : ℝ) ≤ Real.sqrt ((100 - (0 : ℝ)) ^ 2 + ((0 : ℝ) - 0) ^ 2)
    ∧ getMouseInfluence ⟨0, 0, false⟩ 100 0 = 0 := by
  have hs : Real.sqrt (((100 : ℝ) - 0) ^ 2 + ((0 : ℝ) - 0) ^ 2) = 100 := by
    rw [show ((100 : ℝ) - 0) ^ 2 + ((0 : ℝ) - 0) ^ 2 = 100 ^ 2 by norm_num]
    exact Real.sqrt_sq (by norm_num)
  refine ⟨(C3_mouse_influence ⟨0, 0, false⟩ 0 0).2.1.mpr ⟨rfl, rfl⟩, ?_, ?_⟩
  · rw [hs]
  · exact (C3_mouse_influence ⟨0, 0, false⟩ 100 0).2.2.1 (by rw [hs])

/-- A single ripple's contribution is non-negative whenever its intensity
is (every ripple the handlers create has intensity 2). -/
theorem rippleContribution_nonneg (t x y : ℝ) (r : Ripple)
    (h : 0 ≤ r.intensity) : 0 ≤ rippleContribution t x y r := by
  simp only [rippleContribution]
  split_ifs with h1 h2
  · have hp : (t - r.time) / 2000 < 1 := (div_lt_one (by norm_num)).mpr h1
    have hq : |Real.sqrt ((x - r.x) * (x - r.x) + (y - r.y) * (y - r.y))
        - (t - r.time) / 2000 * 150| / 40 < 1 := (div_lt_one (by norm_num)).mpr h2
    have := mul_nonneg (mul_nonneg (by linarith : (0:ℝ) ≤ 1 - (t - r.time) / 2000) h)
      (by linarith : (0:ℝ) ≤ 1 - |Real.sqrt ((x - r.x) * (x - r.x) + (y - r.y) * (y - r.y))
        - (t - r.time) / 2000 * 150| / 40)
    linarith
  · exact le_refl 0
  · exact le_refl 0

/-- C4: with every ripple intensity non-negative (the handlers always use
intensity 2), `getRippleInfluence` returns a value in `[0, 2]` for any
number of overlapping ripples. -/
theorem C4_ripple_influence_bounds (ripples : List Ripple) (x y t : ℝ)
    (h : ∀ r ∈ ripples, 0 ≤ r.intensity) :
    0 ≤ getRippleInfluence ripples x y t ∧ getRippleInfluence ripples x y t ≤ 2 := by
  unfold getRippleInfluence
  constructor
  · apply le_min _ (by norm_num)
    apply List.sum_nonneg
    intro a ha
    rw [List.mem_map] at ha
    obtain ⟨r, hr, rfl⟩ := ha
    exact rippleContribution_nonneg t x y r (h r hr)
  · exact min_le_right _ _

/-- C4, witness: a single fresh ripple of intensity 2 queried at its own
center saturates at influence exactly 2, still within `[0, 2]`. -/
theorem C4_ripple_influence_bounds_witness :
    (∀ r ∈ [(⟨0, 0, 0, 2⟩ : Ripple)], 0 ≤ r.intensity)
    ∧ 0 ≤ getRippleInfluence [⟨0, 0, 0, 2⟩] 0 0 0
    ∧ getRippleInfluence [⟨0, 0, 0, 2⟩] 0 0 0 ≤ 2 := by
  have hI : ∀ r ∈ [(⟨0, 0, 0, 2⟩ : Ripple)], 0 ≤ r.intensity := by
    rintro r hr
    rcases List.mem_singleton.mp hr with rfl
    norm_num
  have h := C4_ripple_influence_bounds [⟨0, 0, 0, 2⟩] 0 0 0 hI
  exact ⟨hI, h.1, h.2⟩

/-- The ripple-influence rule exactly as the spec words it, for a live
ripple: `progress = age / 2000`, `currentRadius = progress * 150`, the
point contributes only when `|distance − currentRadius| < 40`, and then
contributes `(1 − progress) · intensity · (1 − |distance − currentRadius| / 40)`. -/
noncomputable def specRippleContribution (currentTime x y : ℝ) (r : Ripple) : ℝ :=
  let age := currentTime - r.time
  let progress := age / 2000
  let currentRadius := progress * 150
  let distance := Real.sqrt ((x - r.x) * (x - r.x) + (y - r.y) * (y - r.y))
  if |distance - currentRadius| < 40 then
    (1 - progress) * r.intensity * (1 - |distance - currentRadius| / 40)
  else 0

/-- C5: for a live ripple (`age < 2000`) the code's contribution agrees
with the spec's rule, contributions are summed over the list before the
cap at 2 is applied, and the concrete scenario holds: a ripple of
intensity 2 queried 1000 ms after creation at a point 75 px from its
center yields influence 1. -/
theorem C5_live_ripple_contribution (r : Ripple) (x y t : ℝ)
    (h : t - r.time < 2000) :
    rippleContribution t x y r = specRippleContribution t x y r
    ∧ (∀ l : List Ripple, getRippleInfluence l x y t
        = min ((l.map (rippleContribution t x y)).sum) 2)
    ∧ (∀ t0 : ℝ, getRippleInfluence [⟨0, 0, t0, 2⟩] 75 0 (t0 + 1000) = 1) := by
  refine ⟨?_, fun l => rfl, ?_⟩
  · simp only [rippleContribution, specRippleContribution]
    rw [if_pos h]
  · intro t0
    have hage : t0 + 1000 - t0 = (1000 : ℝ) := by ring
    have hs : Real.sqrt (((75 : ℝ) - 0) * ((75 : ℝ) - 0) + ((0 : ℝ) - 0) * ((0 : ℝ) - 0))
        = 75 := by
      rw [show ((75 : ℝ) - 0) * ((75 : ℝ) - 0) + ((0 : ℝ) - 0) * ((0 : ℝ) - 0)
        = 75 ^ 2 by norm_num]
      exact Real.sqrt_sq (by norm_num)
    simp only [getRippleInfluence, List.map_cons, List.map_nil, List.sum_cons,
      List.sum_nil, rippleContribution, hage, hs]
    norm_num

/-- C5, witness: the scenario at creation time 0, queried at time 1000. -/
theorem C5_live_ripple_contribution_witness :
    (1000 : ℝ) - (⟨0, 0, 0, 2⟩ : Ripple).time < 2000
    ∧ getRippleInfluence [⟨0, 0, 0, 2⟩] 75 0 (0 + 1000) = 1 := by
  have h := C5_live_ripple_contribution ⟨0, 0, 0, 2⟩ 75 0 1000 (by norm_num)
  exact ⟨by norm_num, h.2.2 0⟩

/-- C6: per frame and per dot, the total influence is the plain sum of
mouse and ripple influence with no further cap, the painted radius is
`max 0 (1.5 + totalInfluence·3 + sin(time + phase)·0.5)`, the opacity is
`max 0.3 (0.6 + totalInfluence·0.4 + |sin(time·0.5 + phase)|·0.1)` — a
hard floor of 0.3 — and the opacity can exceed 1. -/
theorem C6_render_formulas (mouse : Mouse) (ripples : List Ripple)
    (time currentTime : ℝ) (dot : Dot) :
    (renderDot mouse ripples time currentTime dot).1
      = max 0 (1.5 + (getMouseInfluence mouse dot.originalX dot.originalY
          + getRippleInfluence ripples dot.originalX dot.originalY currentTime) * 3
          + Real.sin (time + dot.phase) * 0.5)
    ∧ (renderDot mouse ripples time currentTime dot).2.1
      = max 0.3 (0.6 + (getMouseInfluence mouse dot.originalX dot.originalY
          + getRippleInfluence ripples dot.originalX dot.originalY currentTime) * 0.4
          + |Real.sin (time * 0.5 + dot.phase)| * 0.1)
    ∧ (0.3 : ℝ) ≤ (renderDot mouse ripples time currentTime dot).2.1
    ∧ ∃ (m' : Mouse) (r' : List Ripple) (t' ct' : ℝ) (d' : Dot),
        1 < (renderDot m' r' t' ct' d').2.1 := by
  refine ⟨rfl, rfl, le_max_left _ _, ?_⟩
  refine ⟨⟨0, 0, false⟩, [], 0, 0, ⟨0, 0, 0, 0, Real.pi / 2⟩, ?_⟩
  have hm : getMouseInfluence ⟨0, 0, false⟩ 0 0 = 1 := by
    simp [getMouseInfluence]
  have hr : getRippleInfluence [] 0 0 0 = 0 := by
    simp [getRippleInfluence]
  have hsin : Real.sin ((0 : ℝ) * 0.5 + Real.pi / 2) = 1 := by
    rw [show (0 : ℝ) * 0.5 + Real.pi / 2 = Real.pi / 2 by ring]
    exact Real.sin_pi_div_two
  have hval : (renderDot ⟨0, 0, false⟩ [] 0 0 ⟨0, 0, 0, 0, Real.pi / 2⟩).2.1
      = max 0.3 (0.6 + (getMouseInfluence ⟨0, 0, false⟩ 0 0
          + getRippleInfluence [] 0 0 0) * 0.4
          + |Real.sin ((0 : ℝ) * 0.5 + Real.pi / 2)| * 0.1) := rfl
  rw [hval, hm, hr, hsin]
  have habs : (0.6 : ℝ) + (1 + 0) * 0.4 + |(1 : ℝ)| * 0.1 = 1.1 := by
    rw [abs_one]
    norm_num
  rw [habs]
  exact lt_max_iff.mpr (Or.inr (by norm_num))

/-- An externally visible effect of the constructor. -/
inductive Effect where
  | registerListener (target eventName : String)
  | paint
  | scheduleFrame
  | raiseError
  deriving DecidableEq

/-- The effects of `init()` = `resize(); initEvents(); animate()` when the
canvas was found: `initEvents` registers the five listeners, `animate`
paints the first frame and schedules the next. -/
def initEffects : List Effect :=
  [Effect.registerListener "window" "resize",
   Effect.registerListener "document" "mousemove",
   Effect.registerListener "canvas" "mousedown",
   Effect.registerListener "canvas" "mouseup",
   Effect.registerListener "canvas" "touchstart",
   Effect.paint,
   Effect.scheduleFrame]

/-- The constructor's effects as a function of the result of
`document.getElementById(canvasId)`: `if (!this.canvas) return;` makes it
return before `init()` when the lookup found nothing. -/
def constructorEffects (canvas : Option Unit) : List Effect :=
  match canvas with
  | none => []
  | some _ => initEffects

/-- C7: with a surface identifier that resolves to no element the
constructor is a silent no-op — no painting, no listener registration, no
error — while a resolved surface gets the full initialization. -/
theorem C7_missing_canvas_noop :
    constructorEffects none = ([] : List Effect)
    ∧ constructorEffects (some ()) = initEffects := ⟨rfl, rfl⟩

/-- C8, counterexample: the `touchstart` handler creates a ripple but does
not prune; starting from a ripple created at time 0, a touch at time 5000
leaves that ripple in the list with age 5000 ≥ 3000. -/
theorem C8_touchstart_no_prune_counterexample :
    ∃ r ∈ (touchstartHandler ⟨0, 0, false⟩ [⟨0, 0, 0, 2⟩] 5 5 0 0 5000).2,
      ¬ ((5000 : ℝ) - r.time < 3000) := by
  refine ⟨⟨0, 0, 0, 2⟩, ?_, by norm_num⟩
  simp [touchstartHandler]

/-- C8 (amended): only the `mousedown` handler prunes — after it runs,
every ripple in the list has age strictly below 3000 ms; the `touchstart`
handler merely appends the new ripple and drops nothing, so stale ripples
can survive a touch-triggered creation. -/
theorem C8_mousedown_prune_amended (mouse : Mouse) (ripples : List Ripple)
    (clientX clientY rectLeft rectTop now : ℝ) :
    (∀ r ∈ (mousedownHandler mouse ripples clientX clientY rectLeft rectTop now).2,
        now - r.time < 3000)
    ∧ (touchstartHandler mouse ripples clientX clientY rectLeft rectTop now).2
        = ripples ++ [⟨clientX - rectLeft, clientY - rectTop, now, 2⟩] := by
  constructor
  · intro r hr
    simp only [mousedownHandler, List.mem_filter] at hr
    exact of_decide_eq_true hr.2
  · rfl

/-- C8, witness: a click at time 1000 on an empty ripple list leaves the
single new ripple, whose age 0 is below 3000. -/
theorem C8_mousedown_prune_amended_witness :
    (⟨3, 4, 1000, 2⟩ : Ripple) ∈ (mousedownHandler ⟨0, 0, false⟩ [] 3 4 0 0 1000).2
    ∧ (1000 : ℝ) - (⟨3, 4, 1000, 2⟩ : Ripple).time < 3000 := by
  have hmem : (⟨3, 4, 1000, 2⟩ : Ripple)
      ∈ (mousedownHandler ⟨0, 0, false⟩ [] 3 4 0 0 1000).2 := by
    simp only [mousedownHandler, List.nil_append]
    norm_num
  exact ⟨hmem,
    (C8_mousedown_prune_amended ⟨0, 0, false⟩ [] 3 4 0 0 1000).1 _ hmem⟩

/-- C9: the `touchstart` handler appends exactly one ripple, with
intensity 2, timestamp `now`, and the surface-local touch position, and
leaves the pointer state (including `isDown`) unchanged. -/
theorem C9_touchstart_effect (mouse : Mouse) (ripples : List Ripple)
    (touchClientX touchClientY rectLeft rectTop now : ℝ) :
    (touchstartHandler mouse ripples touchClientX touchClientY rectLeft rectTop now).1
      = mouse
    ∧ (touchstartHandler mouse ripples touchClientX touchClientY rectLeft rectTop now).2.length
      = ripples.length + 1
    ∧ (touchstartHandler mouse ripples touchClientX touchClientY rectLeft rectTop now).2.take
        ripples.length = ripples
    ∧ (touchstartHandler mouse ripples touchClientX touchClientY rectLeft rectTop now).2.getLast?
      = some ⟨touchClientX - rectLeft, touchClientY - rectTop, now, 2⟩ := by
  refine ⟨rfl, ?_, ?_, ?_⟩
  · simp [touchstartHandler]
  · exact List.take_left ripples _
  · simp [touchstartHandler]

/-- C10: one `animate()` frame leaves the ripple list exactly as it was
and preserves every dot's `originalX`, `originalY` and `phase` (resetting
`x`/`y` to the originals); the `mousemove` and `mouseup` handlers leave
the ripple list untouched, `touchstart` keeps every existing ripple, and
the only removal anywhere is the `mousedown` age filter — its output only
ever loses elements of the clicked-in list. -/
theorem C10_frame_effects (s : DotsState) (currentTime : ℝ) :
    (animateStep s currentTime).ripples = s.ripples
    ∧ (animateStep s currentTime).dots.map
        (fun d => (d.originalX, d.originalY, d.phase))
      = s.dots.map (fun d => (d.originalX, d.originalY, d.phase))
    ∧ (animateStep s currentTime).dots.map (fun d => (d.x, d.y))
      = s.dots.map (fun d => (d.originalX, d.originalY))
    ∧ (∀ (mouse : Mouse) (clientX clientY rectLeft rectTop : ℝ),
        (mousemoveHandler mouse s.ripples clientX clientY rectLeft rectTop).2
          = s.ripples)
    ∧ (∀ mouse : Mouse, (mouseupHandler mouse s.ripples).2 = s.ripples)
    ∧ (∀ (mouse : Mouse) (tx ty rectLeft rectTop now : ℝ), ∀ r ∈ s.ripples,
        r ∈ (touchstartHandler mouse s.ripples tx ty rectLeft rectTop now).2)
    ∧ (∀ (mouse : Mouse) (cx cy rectLeft rectTop now : ℝ),
        ∀ r ∈ (mousedownHandler mouse s.ripples cx cy rectLeft rectTop now).2,
          r ∈ s.ripples ++ [⟨cx - rectLeft, cy - rectTop, now, 2⟩]) := by
  refine ⟨rfl, ?_, ?_, fun _ _ _ _ _ => rfl, fun _ => rfl, ?_, ?_⟩
  · simp [animateStep, renderDot]
  · simp [animateStep, renderDot]
  · intro mouse tx ty rl rt now r hr
    simp only [touchstartHandler, List.mem_append]
    exact Or.inl hr
  · intro mouse cx cy rl rt now r hr
    simp only [mousedownHandler, List.mem_filter] at hr
    exact hr.1

/-- C10, witness: a concrete one-ripple, one-dot state. -/
theorem C10_frame_effects_witness :
    (animateStep ⟨0, 1, ⟨0, 0, false⟩, [⟨1, 2, 3, 2⟩], [⟨5, 6, 5, 6, 0⟩]⟩ 7).ripples
      = [⟨1, 2, 3, 2⟩]
    ∧ (⟨1, 2, 3, 2⟩ : Ripple) ∈ [(⟨1, 2, 3, 2⟩ : Ripple)]
    ∧ (⟨1, 2, 3, 2⟩ : Ripple)
      ∈ (touchstartHandler ⟨0, 0, false⟩ [⟨1, 2, 3, 2⟩] 9 9 0 0 7).2 := by
  have h := C10_frame_effects ⟨0, 1, ⟨0, 0, false⟩, [⟨1, 2, 3, 2⟩], [⟨5, 6, 5, 6, 0⟩]⟩ 7
  have hmem : (⟨1, 2, 3, 2⟩ : Ripple) ∈ [(⟨1, 2, 3, 2⟩ : Ripple)] :=
    List.mem_singleton.mpr rfl
  exact ⟨h.1, hmem, h.2.2.2.2.2.1 ⟨0, 0, false⟩ 9 9 0 0 7 _ hmem⟩

end ProfileDots
